import Mathlib

/-!
# kuams3_teleop: joystick teleoperation with a deadman interlock

Shallow embedding of `src/kuams3_teleop/src/kuams3_teleop.cpp`.

* `geometry_msgs::msg::Twist` is a pair of three-component vectors.  The
  `double` fields are taken as exact rationals, so `*` is exact multiplication.
* `sensor_msgs::msg::Joy` carries `axes` (a vector of reals) and `buttons`
  (a vector of 32-bit integers).
* `std::vector::operator[]` has no defined behaviour outside `0 .. size-1`;
  the embedding makes the access fallible (`none`), and `joyCallback`
  inherits that.  `joyCallbackRaw` follows the unchecked access past the end.
* The node is spun by `rclcpp::spin` (source line 88) and both callbacks are
  registered in the node's default callback group, so the executor runs them
  one at a time: an execution is a list of events (a joystick message or a
  timer tick), and no tick runs between the two assignments of one
  `joyCallback`.  What `vel_pub_->publish` sends is returned as a list of
  emitted commands.
-/

namespace Kuams3Teleop

/-- Three rational components, as in `geometry_msgs::msg::Vector3`. -/
structure Vector3 where
  x : ℚ
  y : ℚ
  z : ℚ
deriving DecidableEq

/-- Velocity command, as in `geometry_msgs::msg::Twist`. -/
structure Twist where
  linear : Vector3
  angular : Vector3
deriving DecidableEq

/-- Value-initialised vector: all components zero. -/
def Vector3.zero : Vector3 := { x := 0, y := 0, z := 0 }

/-- Value-initialised message `geometry_msgs::msg::Twist()`: all components zero. -/
def Twist.zero : Twist := { linear := Vector3.zero, angular := Vector3.zero }

/-- Joystick message: the two sequences of `sensor_msgs::msg::Joy` the node reads. -/
structure Joy where
  axes : List ℚ
  buttons : List Int
deriving DecidableEq

/-- Node parameters (source lines 67-68), read once in the constructor. -/
structure Config where
  linear_axis_ : Int
  angular_axis_ : Int
  deadman_axis_ : Int
  linear_scale_ : ℚ
  angular_scale_ : ℚ
deriving DecidableEq

/-- Parameter defaults given to `declare_parameter` (source lines 14-18). -/
def defaultConfig : Config :=
  { linear_axis_ := 1, angular_axis_ := 0, deadman_axis_ := 4,
    linear_scale_ := 3 / 10, angular_scale_ := 9 / 10 }

/-- State variables of the node (source lines 78-81). -/
structure State where
  last_published_ : Twist
  deadman_pressed_ : Bool
  zero_twist_published_ : Bool
deriving DecidableEq

/-- State built by the constructor: both flags are set to `false` (lines 28-29)
and `last_published_` is a default-constructed, all-zero `Twist`. -/
def initialState : State :=
  { last_published_ := Twist.zero, deadman_pressed_ := false,
    zero_twist_published_ := false }

/-- Element access `v[i]` of a `std::vector` with an `int` index: defined only
for `0 ≤ i < v.size()` (a negative `int` converts to a huge `size_t`). -/
def index {α : Type} (v : List α) (i : Int) : Option α :=
  if 0 ≤ i then v[i.toNat]? else none

/-- Callback `joyCallback` (source lines 41-48).  A fresh zero `Twist` gets
`angular.z` and `linear.x` from the scaled axes, is stored in
`last_published_`, and the deadman button (an integer, converted to `bool`:
non-zero is `true`) is stored in `deadman_pressed_`.  The result is `none`
when one of the three element accesses is out of range. -/
def joyCallback (cfg : Config) (s : State) (joy : Joy) : Option State := do
  let a ← index joy.axes cfg.angular_axis_
  let l ← index joy.axes cfg.linear_axis_
  let vel : Twist :=
    { linear := { Vector3.zero with x := cfg.linear_scale_ * l },
      angular := { Vector3.zero with z := cfg.angular_scale_ * a } }
  let b ← index joy.buttons cfg.deadman_axis_
  pure { s with last_published_ := vel, deadman_pressed_ := decide (b ≠ 0) }

/-- Timer callback `publish` (source lines 50-64): the new state and the list
of commands handed to `vel_pub_->publish` during the call. -/
def publish (s : State) : State × List Twist :=
  if s.deadman_pressed_ then
    ({ s with zero_twist_published_ := false }, [s.last_published_])
  else if !s.deadman_pressed_ && !s.zero_twist_published_ then
    ({ s with zero_twist_published_ := true }, [Twist.zero])
  else
    (s, [])

/-- Things the executor can run: the subscription callback on a message, or
the 100 ms timer callback. -/
inductive Event where
  | joy (msg : Joy)
  | tick
deriving DecidableEq

/-- Run a list of events in order.  The second component has one entry per
tick, in order: the commands that tick emitted. -/
def trace (cfg : Config) : State → List Event → Option (State × List (List Twist))
  | s, [] => some (s, [])
  | s, Event.joy msg :: es =>
    match joyCallback cfg s msg with
    | none => none
    | some s1 => trace cfg s1 es
  | s, Event.tick :: es =>
    match trace cfg (publish s).1 es with
    | none => none
    | some (s2, outs) => some (s2, (publish s).2 :: outs)

/-- All commands emitted during a run, oldest first. -/
def emitted (cfg : Config) (s : State) (es : List Event) : Option (State × List Twist) :=
  (trace cfg s es).map fun r => (r.1, r.2.flatten)

/-- Number of ticks in an event list. -/
def ticks : List Event → Nat
  | [] => 0
  | Event.joy _ :: es => ticks es
  | Event.tick :: es => ticks es + 1

/-- The sample has the elements the configuration needs: `axes` contains the
indices `axis_linear` and `axis_angular`, `buttons` contains `axis_deadman`. -/
def validSample (cfg : Config) (joy : Joy) : Prop :=
  (0 ≤ cfg.linear_axis_ ∧ cfg.linear_axis_ < joy.axes.length) ∧
  (0 ≤ cfg.angular_axis_ ∧ cfg.angular_axis_ < joy.axes.length) ∧
  (0 ≤ cfg.deadman_axis_ ∧ cfg.deadman_axis_ < joy.buttons.length)

instance (cfg : Config) (joy : Joy) : Decidable (validSample cfg joy) := by
  unfold validSample; infer_instance

/-- The deadman button of the sample reads pressed (non-zero). -/
def pressed (cfg : Config) (joy : Joy) : Prop :=
  ∃ b, index joy.buttons cfg.deadman_axis_ = some b ∧ b ≠ 0

/-- The deadman button of the sample reads released (zero). -/
def released (cfg : Config) (joy : Joy) : Prop :=
  index joy.buttons cfg.deadman_axis_ = some 0

instance (cfg : Config) (joy : Joy) : Decidable (released cfg joy) := by
  unfold released; infer_instance

/-- Every joystick event of the list carries a valid sample. -/
def validEvents (cfg : Config) (es : List Event) : Prop :=
  ∀ msg, Event.joy msg ∈ es → validSample cfg msg

/-- Every joystick event of the list has the deadman button released. -/
def allReleased (cfg : Config) (es : List Event) : Prop :=
  ∀ msg, Event.joy msg ∈ es → released cfg msg

/-- Sample of Scenario A: `axes = [0.5, 1.0]`, `buttons = [0,0,0,0,1]`. -/
def scenarioA : Joy := { axes := [1 / 2, 1], buttons := [0, 0, 0, 0, 1] }

/-- Sample of Scenario B: as Scenario A with the deadman button released. -/
def scenarioB : Joy := { axes := [1 / 2, 1], buttons := [0, 0, 0, 0, 0] }

/-- Sample of Scenario C: `axes = [0.5]`, too short for `axis_linear = 1`. -/
def scenarioC : Joy := { axes := [1 / 2], buttons := [0, 0, 0, 0, 1] }

/-- Command with the two components the node drives. -/
def cmd (linear angular : ℚ) : Twist :=
  { linear := { x := linear, y := 0, z := 0 }, angular := { x := 0, y := 0, z := angular } }

/-- State reached from the constructor state by Scenario A (the sample, then
one tick): command `(0.3, 0.45)` cached, deadman pressed, flag unset. -/
def afterScenarioA : State :=
  { last_published_ := cmd (3 / 10) (9 / 20), deadman_pressed_ := true,
    zero_twist_published_ := false }

/-- Only `linear.x` and `angular.z` of the command may be non-zero. -/
def planar (t : Twist) : Prop :=
  t.linear.y = 0 ∧ t.linear.z = 0 ∧ t.angular.x = 0 ∧ t.angular.y = 0

/-! ### The unchecked element access

`joyCallback` indexes `joy->axes` and `joy->buttons` with `operator[]` and
never compares an index with the size.  `index` records where that access is
defined.  `indexRaw` follows the access the way the compiled code performs it
when it does not fault: inside the vector it is the element, outside it is
whatever lies at that address, given by `beyond`. -/

/-- Unchecked `v[i]`: the element when `i` is in range, else the value
`beyond i` found past the end of the storage. -/
def indexRaw {α : Type} (v : List α) (i : Int) (beyond : Int → α) : α :=
  match index v i with
  | some a => a
  | none => beyond i

/-- Body of `joyCallback` (source lines 41-48) with the unchecked accesses:
there is no size test and no error path, the two fields are always written. -/
def joyCallbackRaw (cfg : Config) (s : State) (joy : Joy)
    (beyondAxes : Int → ℚ) (beyondButtons : Int → Int) : State :=
  let vel : Twist :=
    { linear :=
        { Vector3.zero with
          x := cfg.linear_scale_ * indexRaw joy.axes cfg.linear_axis_ beyondAxes },
      angular :=
        { Vector3.zero with
          z := cfg.angular_scale_ * indexRaw joy.axes cfg.angular_axis_ beyondAxes } }
  { s with last_published_ := vel,
           deadman_pressed_ :=
             decide (indexRaw joy.buttons cfg.deadman_axis_ beyondButtons ≠ 0) }

theorem index_isSome_iff {α : Type} (v : List α) (i : Int) :
    (index v i).isSome ↔ 0 ≤ i ∧ i < v.length := by
  unfold index
  split
  · rename_i h
    simp only [h, true_and]
    rw [Option.isSome_iff_exists]
    constructor
    · rintro ⟨a, ha⟩
      have := (List.getElem?_eq_some_iff.mp ha).1
      omega
    · intro hlt
      have hn : i.toNat < v.length := by omega
      exact ⟨v[i.toNat], List.getElem?_eq_getElem hn⟩
  · rename_i h
    simp [h]

theorem index_of_lt {α : Type} (v : List α) (i : Int) (h : 0 ≤ i ∧ i < v.length) :
    ∃ a, index v i = some a :=
  Option.isSome_iff_exists.mp ((index_isSome_iff v i).mpr h)

/-- On a valid sample `joyCallback` returns, and the state it returns is
determined by the three elements it reads and the old suppression flag. -/
theorem joyCallback_of_valid (cfg : Config) (s : State) (joy : Joy)
    (hv : validSample cfg joy) :
    ∃ x y b, index joy.axes cfg.linear_axis_ = some x ∧
      index joy.axes cfg.angular_axis_ = some y ∧
      index joy.buttons cfg.deadman_axis_ = some b ∧
      joyCallback cfg s joy = some
        { last_published_ :=
            { linear := { x := cfg.linear_scale_ * x, y := 0, z := 0 },
              angular := { x := 0, y := 0, z := cfg.angular_scale_ * y } },
          deadman_pressed_ := decide (b ≠ 0),
          zero_twist_published_ := s.zero_twist_published_ } := by
  obtain ⟨hl, ha, hd⟩ := hv
  obtain ⟨x, hx⟩ := index_of_lt _ _ hl
  obtain ⟨y, hy⟩ := index_of_lt _ _ ha
  obtain ⟨b, hb⟩ := index_of_lt _ _ hd
  refine ⟨x, y, b, hx, hy, hb, ?_⟩
  simp [joyCallback, hx, hy, hb, Vector3.zero]

/-- The callback has a defined result exactly on valid samples. -/
theorem joyCallback_isSome_iff (cfg : Config) (s : State) (joy : Joy) :
    (joyCallback cfg s joy).isSome ↔ validSample cfg joy := by
  constructor
  · intro h
    obtain ⟨s1, hs1⟩ := Option.isSome_iff_exists.mp h
    simp only [joyCallback, Option.bind_eq_bind, Option.bind_eq_some, Option.pure_def] at hs1
    obtain ⟨a, ha, l, hl, b, hb, -⟩ := hs1
    refine ⟨(index_isSome_iff _ _).mp ?_, (index_isSome_iff _ _).mp ?_,
      (index_isSome_iff _ _).mp ?_⟩
    · simp [hl]
    · simp [ha]
    · simp [hb]
  · intro hv
    obtain ⟨x, y, b, -, -, -, h⟩ := joyCallback_of_valid cfg s joy hv
    simp [h]

/-- A released valid sample: the callback returns, clears the deadman state
and keeps the suppression flag. -/
theorem joyCallback_of_released (cfg : Config) (s : State) (joy : Joy)
    (hv : validSample cfg joy) (hr : released cfg joy) :
    ∃ s1, joyCallback cfg s joy = some s1 ∧ s1.deadman_pressed_ = false ∧
      s1.zero_twist_published_ = s.zero_twist_published_ := by
  obtain ⟨x, y, b, -, -, hb, h⟩ := joyCallback_of_valid cfg s joy hv
  have hb0 : b = 0 := by
    have := hb.symm.trans hr
    simpa using this
  exact ⟨_, h, by simp [hb0], rfl⟩

theorem publish_pressed (s : State) (h : s.deadman_pressed_ = true) :
    publish s = ({ s with zero_twist_published_ := false }, [s.last_published_]) := by
  simp [publish, h]

theorem publish_released_unflagged (s : State) (hd : s.deadman_pressed_ = false)
    (hz : s.zero_twist_published_ = false) :
    publish s = ({ s with zero_twist_published_ := true }, [Twist.zero]) := by
  simp [publish, hd, hz]

theorem publish_released_flagged (s : State) (hd : s.deadman_pressed_ = false)
    (hz : s.zero_twist_published_ = true) : publish s = (s, []) := by
  simp [publish, hd, hz]

theorem trace_tick (cfg : Config) (s : State) (es : List Event) :
    trace cfg s (Event.tick :: es) =
      (trace cfg (publish s).1 es).map fun r => (r.1, (publish s).2 :: r.2) := by
  simp only [trace]
  cases trace cfg (publish s).1 es <;> rfl

theorem trace_joy (cfg : Config) (s : State) (msg : Joy) (es : List Event) :
    trace cfg s (Event.joy msg :: es) = (joyCallback cfg s msg).bind fun s1 => trace cfg s1 es := by
  simp only [trace]
  cases joyCallback cfg s msg <;> rfl

/-- In the idle state (deadman released, flag set) ticks emit nothing. -/
theorem trace_replicate_tick_idle (cfg : Config) (s : State)
    (hd : s.deadman_pressed_ = false) (hz : s.zero_twist_published_ = true) (n : Nat) :
    trace cfg s (List.replicate n Event.tick) = some (s, List.replicate n []) := by
  induction n with
  | zero => rfl
  | succ n ih =>
    rw [List.replicate_succ, trace_tick, publish_released_flagged s hd hz]
    simp [ih, List.replicate_succ]

/-- The callback never touches the suppression flag. -/
theorem joyCallback_flag (cfg : Config) (s s1 : State) (joy : Joy)
    (h : joyCallback cfg s joy = some s1) :
    s1.zero_twist_published_ = s.zero_twist_published_ := by
  simp only [joyCallback, Option.bind_eq_bind, Option.bind_eq_some, Option.pure_def] at h
  obtain ⟨a, -, l, -, b, -, hs⟩ := h
  rw [← Option.some.inj hs]

theorem validEvents_tail (cfg : Config) (e : Event) (es : List Event)
    (h : validEvents cfg (e :: es)) : validEvents cfg es :=
  fun m hm => h m (List.mem_cons_of_mem _ hm)

theorem allReleased_tail (cfg : Config) (e : Event) (es : List Event)
    (h : allReleased cfg (e :: es)) : allReleased cfg es :=
  fun m hm => h m (List.mem_cons_of_mem _ hm)

/-- A run over valid samples always has a result. -/
theorem trace_of_valid (cfg : Config) (es : List Event) :
    ∀ s : State, validEvents cfg es → ∃ r, trace cfg s es = some r := by
  induction es with
  | nil => intro s _; exact ⟨_, rfl⟩
  | cons e es ih =>
    intro s hv
    cases e with
    | joy msg =>
      obtain ⟨x, y, b, -, -, -, h⟩ :=
        joyCallback_of_valid cfg s msg (hv msg (List.mem_cons_self _ _))
      rw [trace_joy, h]
      exact ih _ (validEvents_tail cfg _ es hv)
    | tick =>
      obtain ⟨r, hr⟩ := ih (publish s).1 (validEvents_tail cfg _ es hv)
      rw [trace_tick, hr]
      exact ⟨_, rfl⟩

theorem trace_append (cfg : Config) (es1 es2 : List Event) :
    ∀ s : State, trace cfg s (es1 ++ es2) =
      (trace cfg s es1).bind fun r1 =>
        (trace cfg r1.1 es2).map fun r2 => (r2.1, r1.2 ++ r2.2) := by
  induction es1 with
  | nil =>
    intro s
    simp [trace]
  | cons e es ih =>
    intro s
    cases e with
    | joy msg =>
      rw [List.cons_append, trace_joy, trace_joy]
      cases joyCallback cfg s msg with
      | none => rfl
      | some s1 => simp [ih s1]
    | tick =>
      rw [List.cons_append, trace_tick, trace_tick, ih]
      cases trace cfg (publish s).1 es with
      | none => rfl
      | some r1 =>
        cases h2 : trace cfg r1.1 es2 <;> simp [h2]

/-- While every sample is released, an idle node (deadman released, flag set)
stays idle and no tick emits anything. -/
theorem trace_idle_allReleased (cfg : Config) (es : List Event) :
    ∀ s : State, validEvents cfg es → allReleased cfg es →
      s.deadman_pressed_ = false → s.zero_twist_published_ = true →
      ∃ s2, trace cfg s es = some (s2, List.replicate (ticks es) []) ∧
        s2.deadman_pressed_ = false ∧ s2.zero_twist_published_ = true := by
  induction es with
  | nil => intro s _ _ hd hz; exact ⟨s, rfl, hd, hz⟩
  | cons e es ih =>
    intro s hv hr hd hz
    cases e with
    | joy msg =>
      obtain ⟨s1, h1, hd1, hz1⟩ := joyCallback_of_released cfg s msg
        (hv msg (List.mem_cons_self _ _)) (hr msg (List.mem_cons_self _ _))
      rw [trace_joy, h1]
      exact ih s1 (validEvents_tail cfg _ es hv) (allReleased_tail cfg _ es hr) hd1
        (hz1.trans hz)
    | tick =>
      obtain ⟨s2, h2, hd2, hz2⟩ :=
        ih s (validEvents_tail cfg _ es hv) (allReleased_tail cfg _ es hr) hd hz
      refine ⟨s2, ?_, hd2, hz2⟩
      rw [trace_tick, publish_released_flagged s hd hz]
      simp [h2, ticks, List.replicate_succ]

/-- While every sample is released, a node with the deadman released and the
flag unset emits one zero command, on the first tick, and nothing afterwards. -/
theorem trace_released_allReleased (cfg : Config) (es : List Event) :
    ∀ s : State, validEvents cfg es → allReleased cfg es →
      s.deadman_pressed_ = false → s.zero_twist_published_ = false → 1 ≤ ticks es →
      ∃ s2, trace cfg s es = some (s2, [Twist.zero] :: List.replicate (ticks es - 1) []) ∧
        s2.deadman_pressed_ = false ∧ s2.zero_twist_published_ = true := by
  induction es with
  | nil => intro s _ _ _ _ hn; simp [ticks] at hn
  | cons e es ih =>
    intro s hv hr hd hz hn
    cases e with
    | joy msg =>
      obtain ⟨s1, h1, hd1, hz1⟩ := joyCallback_of_released cfg s msg
        (hv msg (List.mem_cons_self _ _)) (hr msg (List.mem_cons_self _ _))
      rw [trace_joy, h1]
      exact ih s1 (validEvents_tail cfg _ es hv) (allReleased_tail cfg _ es hr) hd1
        (hz1.trans hz) hn
    | tick =>
      obtain ⟨s2, h2, hd2, hz2⟩ := trace_idle_allReleased cfg es
        { s with zero_twist_published_ := true }
        (validEvents_tail cfg _ es hv) (allReleased_tail cfg _ es hr) hd rfl
      refine ⟨s2, ?_, hd2, hz2⟩
      rw [trace_tick, publish_released_unflagged s hd hz]
      simp [h2, ticks]

/-- Invariant behind the interlock: whenever the suppression flag is set, the
most recently emitted command is the zero command. -/
theorem trace_flag_invariant (cfg : Config) (es : List Event) :
    ∀ (s : State) (acc : List Twist) (r : State × List (List Twist)),
      (s.zero_twist_published_ = true → acc.getLast? = some Twist.zero) →
      trace cfg s es = some r →
      (r.1.zero_twist_published_ = true →
        (acc ++ r.2.flatten).getLast? = some Twist.zero) := by
  induction es with
  | nil =>
    intro s acc r hinv h
    simp only [trace, Option.some.injEq] at h
    subst h
    simpa using hinv
  | cons e es ih =>
    intro s acc r hinv h
    cases e with
    | joy msg =>
      rw [trace_joy] at h
      cases h1 : joyCallback cfg s msg with
      | none => simp [h1] at h
      | some s1 =>
        rw [h1] at h
        exact ih s1 acc r (fun hz => hinv ((joyCallback_flag cfg s s1 msg h1) ▸ hz)) h
    | tick =>
      rw [trace_tick] at h
      cases h2 : trace cfg (publish s).1 es with
      | none => simp [h2] at h
      | some r2 =>
        rw [h2] at h
        simp only [Option.map_some', Option.some.injEq] at h
        subst h
        have hstep : (publish s).1.zero_twist_published_ = true →
            (acc ++ (publish s).2).getLast? = some Twist.zero := by
          intro hz
          cases hd : s.deadman_pressed_ with
          | true => rw [publish_pressed s hd] at hz; simp at hz
          | false =>
            cases hf : s.zero_twist_published_ with
            | true =>
              rw [publish_released_flagged s hd hf]
              simpa using hinv hf
            | false =>
              rw [publish_released_unflagged s hd hf]
              simp
        have := ih (publish s).1 (acc ++ (publish s).2) r2 hstep h2
        simpa [List.flatten, List.append_assoc] using this

/-! ## The three branches of the timer callback -/

/-- C2: in any state with the deadman pressed, whatever the suppression flag,
`publish` emits exactly one command, the cached `last_published_`, and leaves
the flag `false` (the other two fields are untouched). -/
theorem C2_tick_deadman_pressed (s : State) (h : s.deadman_pressed_ = true) :
    (publish s).2 = [s.last_published_] ∧
    (publish s).1.zero_twist_published_ = false ∧
    (publish s).1 = { s with zero_twist_published_ := false } := by
  rw [publish_pressed s h]
  exact ⟨rfl, rfl, rfl⟩

theorem C2_tick_deadman_pressed_witness :
    (publish { last_published_ :=
                { linear := { x := 3 / 10, y := 0, z := 0 },
                  angular := { x := 0, y := 0, z := 9 / 20 } },
               deadman_pressed_ := true, zero_twist_published_ := true }).2 =
      [{ linear := { x := 3 / 10, y := 0, z := 0 },
         angular := { x := 0, y := 0, z := 9 / 20 } }] ∧
    (publish { last_published_ :=
                { linear := { x := 3 / 10, y := 0, z := 0 },
                  angular := { x := 0, y := 0, z := 9 / 20 } },
               deadman_pressed_ := true, zero_twist_published_ := true
             }).1.zero_twist_published_ = false :=
  ⟨(C2_tick_deadman_pressed _ rfl).1, (C2_tick_deadman_pressed _ rfl).2.1⟩

/-- C3: in any state with the deadman released and the suppression flag unset,
`publish` emits exactly one command, the all-zero `Twist`, whatever the cached
command is, and leaves the flag `true`. -/
theorem C3_tick_just_released (s : State) (hd : s.deadman_pressed_ = false)
    (hz : s.zero_twist_published_ = false) :
    (publish s).2 =
      [{ linear := { x := 0, y := 0, z := 0 }, angular := { x := 0, y := 0, z := 0 } }] ∧
    (publish s).1.zero_twist_published_ = true ∧
    (publish s).1 = { s with zero_twist_published_ := true } := by
  rw [publish_released_unflagged s hd hz]
  exact ⟨rfl, rfl, rfl⟩

theorem C3_tick_just_released_witness :
    (publish { last_published_ :=
                { linear := { x := 3 / 10, y := 0, z := 0 },
                  angular := { x := 0, y := 0, z := 9 / 20 } },
               deadman_pressed_ := false, zero_twist_published_ := false }).2 =
      [{ linear := { x := 0, y := 0, z := 0 }, angular := { x := 0, y := 0, z := 0 } }] ∧
    (publish { last_published_ :=
                { linear := { x := 3 / 10, y := 0, z := 0 },
                  angular := { x := 0, y := 0, z := 9 / 20 } },
               deadman_pressed_ := false, zero_twist_published_ := false
             }).1.zero_twist_published_ = true :=
  ⟨(C3_tick_just_released _ rfl rfl).1, (C3_tick_just_released _ rfl rfl).2.1⟩

/-- C4: in any state with the deadman released and the suppression flag set,
`publish` emits no command and returns the state unchanged. -/
theorem C4_tick_idle (s : State) (hd : s.deadman_pressed_ = false)
    (hz : s.zero_twist_published_ = true) :
    (publish s).2 = [] ∧ (publish s).1 = s := by
  rw [publish_released_flagged s hd hz]
  exact ⟨rfl, rfl⟩

theorem C4_tick_idle_witness :
    (publish { last_published_ :=
                { linear := { x := 3 / 10, y := 0, z := 0 },
                  angular := { x := 0, y := 0, z := 9 / 20 } },
               deadman_pressed_ := false, zero_twist_published_ := true }).2 = [] ∧
    (publish { last_published_ :=
                { linear := { x := 3 / 10, y := 0, z := 0 },
                  angular := { x := 0, y := 0, z := 9 / 20 } },
               deadman_pressed_ := false, zero_twist_published_ := true }).1 =
      { last_published_ :=
          { linear := { x := 3 / 10, y := 0, z := 0 },
            angular := { x := 0, y := 0, z := 9 / 20 } },
        deadman_pressed_ := false, zero_twist_published_ := true } :=
  C4_tick_idle _ rfl rfl

/-! ## The input translator -/

/-- C7: for every configuration and every sample whose `axes` contains the
indices `axis_linear`, `axis_angular` and whose `buttons` contains
`axis_deadman`, `joyCallback` returns a state whose cached command has
`linear.x = scale_linear * axes[axis_linear]` and
`angular.z = scale_angular * axes[axis_angular]` (all other components zero)
and whose deadman state is true exactly when `buttons[axis_deadman]` is
non-zero; the cached command and deadman state it writes are the same from
every previous state. -/
theorem C7_scaling_correct (cfg : Config) (s : State) (joy : Joy)
    (hv : validSample cfg joy) :
    ∃ x y b, index joy.axes cfg.linear_axis_ = some x ∧
      index joy.axes cfg.angular_axis_ = some y ∧
      index joy.buttons cfg.deadman_axis_ = some b ∧
      ∃ s1, joyCallback cfg s joy = some s1 ∧
        s1.last_published_ = cmd (cfg.linear_scale_ * x) (cfg.angular_scale_ * y) ∧
        (s1.deadman_pressed_ = true ↔ b ≠ 0) ∧
        ∀ s0 : State, ∃ t, joyCallback cfg s0 joy = some t ∧
          t.last_published_ = s1.last_published_ ∧
          t.deadman_pressed_ = s1.deadman_pressed_ := by
  obtain ⟨x, y, b, hx, hy, hb, h⟩ := joyCallback_of_valid cfg s joy hv
  refine ⟨x, y, b, hx, hy, hb, _, h, rfl, by simp, ?_⟩
  intro s0
  obtain ⟨x0, y0, b0, hx0, hy0, hb0, h0⟩ := joyCallback_of_valid cfg s0 joy hv
  have ex : x0 = x := Option.some.inj (hx0.symm.trans hx)
  have ey : y0 = y := Option.some.inj (hy0.symm.trans hy)
  have eb : b0 = b := Option.some.inj (hb0.symm.trans hb)
  subst ex ey eb
  exact ⟨_, h0, rfl, rfl⟩

theorem C7_scaling_correct_witness :
    validSample defaultConfig scenarioA ∧
    ∃ x y b, index scenarioA.axes defaultConfig.linear_axis_ = some x ∧
      index scenarioA.axes defaultConfig.angular_axis_ = some y ∧
      index scenarioA.buttons defaultConfig.deadman_axis_ = some b ∧
      ∃ s1, joyCallback defaultConfig initialState scenarioA = some s1 ∧
        s1.last_published_ =
          cmd (defaultConfig.linear_scale_ * x) (defaultConfig.angular_scale_ * y) ∧
        (s1.deadman_pressed_ = true ↔ b ≠ 0) ∧
        ∀ s0 : State, ∃ t, joyCallback defaultConfig s0 scenarioA = some t ∧
          t.last_published_ = s1.last_published_ ∧
          t.deadman_pressed_ = s1.deadman_pressed_ :=
  ⟨by decide, C7_scaling_correct defaultConfig initialState scenarioA (by decide)⟩

/-- C8: for every configuration, every prior state and every valid sample
whose deadman button is pressed, `joyCallback` followed by `publish` emits
exactly one command, `(scale_linear * axes[axis_linear],
scale_angular * axes[axis_angular])`; with the declared defaults and the
sample of Scenario A the emitted command is `(0.3, 0.45)`. -/
theorem C8_sample_then_tick (cfg : Config) (s : State) (joy : Joy)
    (hv : validSample cfg joy) (hp : pressed cfg joy) :
    (∃ x y, index joy.axes cfg.linear_axis_ = some x ∧
      index joy.axes cfg.angular_axis_ = some y ∧
      ∃ s2, emitted cfg s [Event.joy joy, Event.tick] =
        some (s2, [cmd (cfg.linear_scale_ * x) (cfg.angular_scale_ * y)])) ∧
    (∀ s0 : State, ∃ s2, emitted defaultConfig s0 [Event.joy scenarioA, Event.tick] =
        some (s2, [cmd (3 / 10) (9 / 20)])) := by
  have key : ∀ (c : Config) (t : State) (j : Joy), validSample c j → pressed c j →
      ∃ x y, index j.axes c.linear_axis_ = some x ∧ index j.axes c.angular_axis_ = some y ∧
        ∃ s2, emitted c t [Event.joy j, Event.tick] =
          some (s2, [cmd (c.linear_scale_ * x) (c.angular_scale_ * y)]) := by
    intro c t j hv hp
    obtain ⟨x, y, b, hx, hy, hb, h⟩ := joyCallback_of_valid c t j hv
    obtain ⟨b1, hb1, hne⟩ := hp
    have eb : b1 = b := Option.some.inj (hb1.symm.trans hb)
    subst eb
    refine ⟨x, y, hx, hy, ?_⟩
    simp [emitted, trace, h, publish, hne, cmd]
  refine ⟨key cfg s joy hv hp, ?_⟩
  intro s0
  have hvA : validSample defaultConfig scenarioA := by decide
  have hpA : pressed defaultConfig scenarioA := ⟨1, by decide, by decide⟩
  obtain ⟨x, y, hx, hy, s2, h⟩ := key defaultConfig s0 scenarioA hvA hpA
  have ex : x = 1 := by
    have : index scenarioA.axes defaultConfig.linear_axis_ = some 1 := by
      simp [index, scenarioA, defaultConfig]
    exact Option.some.inj (hx.symm.trans this)
  have ey : y = 1 / 2 := by
    have : index scenarioA.axes defaultConfig.angular_axis_ = some (1 / 2) := by
      simp [index, scenarioA, defaultConfig]
    exact Option.some.inj (hy.symm.trans this)
  subst ex ey
  refine ⟨s2, ?_⟩
  rw [h]
  norm_num [defaultConfig]

theorem C8_sample_then_tick_witness :
    validSample defaultConfig scenarioA ∧ pressed defaultConfig scenarioA ∧
    ∃ s2, emitted defaultConfig initialState [Event.joy scenarioA, Event.tick] =
        some (s2, [cmd (3 / 10) (9 / 20)]) :=
  ⟨by decide, ⟨1, by decide, by decide⟩,
    (C8_sample_then_tick defaultConfig initialState scenarioA (by decide)
      ⟨1, by decide, by decide⟩).2 initialState⟩

/-! ## Runs of events -/

/-- C1: take any finite sequence of valid joystick samples and ticks, run from
the constructor state, and let a tick fire after it.  The run has a result;
if `deadman_pressed_` is false when that tick fires then, right after the
tick, at least one command has been emitted and the most recently emitted
command is the zero command. -/
theorem C1_deadman_interlock_safe (cfg : Config) (pre : List Event)
    (hv : validEvents cfg pre) :
    ∃ s out, emitted cfg initialState pre = some (s, out) ∧
      emitted cfg initialState (pre ++ [Event.tick]) =
        some ((publish s).1, out ++ (publish s).2) ∧
      (s.deadman_pressed_ = false →
        out ++ (publish s).2 ≠ [] ∧
        (out ++ (publish s).2).getLast? = some Twist.zero ∧
        Twist.zero = cmd 0 0) := by
  obtain ⟨r, hr⟩ := trace_of_valid cfg pre initialState hv
  refine ⟨r.1, r.2.flatten, by simp [emitted, hr], ?_, ?_⟩
  · simp [emitted, trace_append, hr, trace]
  · intro hd
    have hlast : (r.2.flatten ++ (publish r.1).2).getLast? = some Twist.zero := by
      cases hf : r.1.zero_twist_published_ with
      | true =>
        rw [publish_released_flagged r.1 hd hf]
        have := trace_flag_invariant cfg pre initialState [] r (by simp [initialState]) hr hf
        simpa using this
      | false =>
        rw [publish_released_unflagged r.1 hd hf]
        simp
    refine ⟨?_, hlast, rfl⟩
    intro hnil
    rw [hnil] at hlast
    simp at hlast

theorem C1_deadman_interlock_safe_witness :
    validEvents defaultConfig [Event.joy scenarioA, Event.tick, Event.joy scenarioB] ∧
    ∃ s out, emitted defaultConfig initialState
        [Event.joy scenarioA, Event.tick, Event.joy scenarioB] = some (s, out) ∧
      emitted defaultConfig initialState
        ([Event.joy scenarioA, Event.tick, Event.joy scenarioB] ++ [Event.tick]) =
        some ((publish s).1, out ++ (publish s).2) ∧
      (s.deadman_pressed_ = false →
        out ++ (publish s).2 ≠ [] ∧
        (out ++ (publish s).2).getLast? = some Twist.zero ∧
        Twist.zero = cmd 0 0) :=
  have hv : validEvents defaultConfig
      [Event.joy scenarioA, Event.tick, Event.joy scenarioB] := by
    intro msg hm
    simp only [List.mem_cons, Event.joy.injEq, List.mem_singleton, List.mem_nil_iff,
      or_false] at hm
    rcases hm with h | h | h
    · subst h; decide
    · exact absurd h (by simp)
    · subst h; decide
  ⟨hv, C1_deadman_interlock_safe defaultConfig _ hv⟩

/-- C10: from the constructor state (deadman released, flag unset, zero
command cached), `n ≥ 1` ticks with no joystick sample in between: the first
tick emits exactly one zero command and each of the other `n - 1` emits
nothing. -/
theorem C10_startup_ticks (cfg : Config) (n : Nat) (hn : 1 ≤ n) :
    initialState = { last_published_ := cmd 0 0, deadman_pressed_ := false,
                     zero_twist_published_ := false } ∧
    trace cfg initialState (List.replicate n Event.tick) =
      some ({ initialState with zero_twist_published_ := true },
            [cmd 0 0] :: List.replicate (n - 1) []) := by
  refine ⟨rfl, ?_⟩
  obtain ⟨m, rfl⟩ : ∃ m, n = m + 1 := ⟨n - 1, by omega⟩
  rw [List.replicate_succ, trace_tick, publish_released_unflagged initialState rfl rfl,
    trace_replicate_tick_idle cfg _ rfl rfl m]
  rfl

theorem C10_startup_ticks_witness :
    1 ≤ 3 ∧
    trace defaultConfig initialState (List.replicate 3 Event.tick) =
      some ({ initialState with zero_twist_published_ := true },
            [cmd 0 0] :: List.replicate (3 - 1) []) :=
  ⟨by decide, (C10_startup_ticks defaultConfig 3 (by decide)).2⟩

/-- C5 (as stated, refuted): `afterScenarioA` is the state left by a tick that
observed the deadman pressed (flag unset).  The event sequence tick, released
sample, tick has two ticks and only released samples, yet its first tick emits
the cached motion command `(0.3, 0.45)` and the zero command comes on the
second tick. -/
theorem C5_counterexample :
    trace defaultConfig initialState [Event.joy scenarioA, Event.tick] =
      some (afterScenarioA, [[cmd (3 / 10) (9 / 20)]]) ∧
    afterScenarioA.zero_twist_published_ = false ∧
    validEvents defaultConfig [Event.tick, Event.joy scenarioB, Event.tick] ∧
    allReleased defaultConfig [Event.tick, Event.joy scenarioB, Event.tick] ∧
    1 ≤ ticks [Event.tick, Event.joy scenarioB, Event.tick] ∧
    trace defaultConfig afterScenarioA [Event.tick, Event.joy scenarioB, Event.tick] =
      some ({ last_published_ := cmd (3 / 10) (9 / 20), deadman_pressed_ := false,
              zero_twist_published_ := true },
            [[cmd (3 / 10) (9 / 20)], [Twist.zero]]) ∧
    ¬ ∃ s2, trace defaultConfig afterScenarioA
        [Event.tick, Event.joy scenarioB, Event.tick] =
      some (s2, [Twist.zero] ::
        List.replicate (ticks [Event.tick, Event.joy scenarioB, Event.tick] - 1) []) := by
  have hB : ∀ msg, Event.joy msg ∈ [Event.tick, Event.joy scenarioB, Event.tick] →
      msg = scenarioB := by
    intro msg hm
    simpa using hm
  have htr : trace defaultConfig afterScenarioA
      [Event.tick, Event.joy scenarioB, Event.tick] =
      some ({ last_published_ := cmd (3 / 10) (9 / 20), deadman_pressed_ := false,
              zero_twist_published_ := true },
            [[cmd (3 / 10) (9 / 20)], [Twist.zero]]) := by
    simp [trace, joyCallback, index, publish, scenarioB, defaultConfig, afterScenarioA,
      cmd, Vector3.zero]
    norm_num
  refine ⟨?_, rfl, ?_, ?_, by decide, htr, ?_⟩
  · simp [trace, joyCallback, index, publish, scenarioA, defaultConfig, afterScenarioA,
      cmd, Vector3.zero]
    norm_num
  · intro msg hm
    rw [hB msg hm]
    decide
  · intro msg hm
    rw [hB msg hm]
    decide
  · rintro ⟨s2, h2⟩
    rw [htr] at h2
    simp [cmd, Twist.zero, Vector3.zero] at h2

/-- C5 (amended): start from any state with the suppression flag unset (the
constructor state, or a state left by a tick that observed the deadman
pressed) such that the deadman is released in it or the event sequence begins
with a sample.  For every event sequence with `n ≥ 1` ticks in
which every joystick sample is valid and has the deadman released, the ticks
emit exactly one zero command, on the first tick, and nothing on the other
`n - 1`. -/
theorem C5_one_stop_per_release (cfg : Config) (s : State) (es : List Event)
    (hz : s.zero_twist_published_ = false)
    (hfirst : s.deadman_pressed_ = false ∨ ∃ msg es1, es = Event.joy msg :: es1)
    (hv : validEvents cfg es) (hr : allReleased cfg es) (hn : 1 ≤ ticks es) :
    ∃ s2, trace cfg s es =
      some (s2, [cmd 0 0] :: List.replicate (ticks es - 1) []) := by
  rcases hfirst with hd | ⟨msg, es1, rfl⟩
  · obtain ⟨s2, h2, -, -⟩ := trace_released_allReleased cfg es s hv hr hd hz hn
    exact ⟨s2, h2⟩
  · obtain ⟨s1, h1, hd1, hz1⟩ := joyCallback_of_released cfg s msg
      (hv msg (List.mem_cons_self _ _)) (hr msg (List.mem_cons_self _ _))
    obtain ⟨s2, h2, -, -⟩ := trace_released_allReleased cfg es1 s1
      (validEvents_tail cfg _ es1 hv) (allReleased_tail cfg _ es1 hr) hd1 (hz1.trans hz) hn
    refine ⟨s2, ?_⟩
    rw [trace_joy, h1]
    exact h2

theorem C5_one_stop_per_release_witness :
    afterScenarioA.zero_twist_published_ = false ∧
    validEvents defaultConfig [Event.joy scenarioB, Event.tick, Event.tick, Event.tick] ∧
    allReleased defaultConfig [Event.joy scenarioB, Event.tick, Event.tick, Event.tick] ∧
    1 ≤ ticks [Event.joy scenarioB, Event.tick, Event.tick, Event.tick] ∧
    ∃ s2, trace defaultConfig afterScenarioA
        [Event.joy scenarioB, Event.tick, Event.tick, Event.tick] =
      some (s2, [cmd 0 0] :: List.replicate
        (ticks [Event.joy scenarioB, Event.tick, Event.tick, Event.tick] - 1) []) :=
  have hB : ∀ msg, Event.joy msg ∈
      [Event.joy scenarioB, Event.tick, Event.tick, Event.tick] → msg = scenarioB := by
    intro msg hm
    simpa using hm
  have hv : validEvents defaultConfig
      [Event.joy scenarioB, Event.tick, Event.tick, Event.tick] := by
    intro msg hm
    rw [hB msg hm]
    decide
  have hr : allReleased defaultConfig
      [Event.joy scenarioB, Event.tick, Event.tick, Event.tick] := by
    intro msg hm
    rw [hB msg hm]
    decide
  ⟨rfl, hv, hr, by decide,
    C5_one_stop_per_release defaultConfig afterScenarioA _ rfl
      (Or.inr ⟨scenarioB, _, rfl⟩) hv hr (by decide)⟩

/-- C6: from any state with the suppression flag set, a valid pressed sample
followed by a tick makes that tick emit the command computed from the sample
and leaves the flag unset; a valid released sample after that, followed by
`n ≥ 1` ticks, makes those ticks emit exactly one zero command, on the first
of them, and nothing afterwards. -/
theorem C6_resume_rearms (cfg : Config) (s : State) (j1 j2 : Joy) (n : Nat)
    (_hz : s.zero_twist_published_ = true)
    (hv1 : validSample cfg j1) (hp1 : pressed cfg j1)
    (hv2 : validSample cfg j2) (hr2 : released cfg j2) (hn : 1 ≤ n) :
    ∃ x y s1 s3, index j1.axes cfg.linear_axis_ = some x ∧
      index j1.axes cfg.angular_axis_ = some y ∧
      joyCallback cfg s j1 = some s1 ∧
      (publish s1).2 = [cmd (cfg.linear_scale_ * x) (cfg.angular_scale_ * y)] ∧
      (publish s1).1.zero_twist_published_ = false ∧
      joyCallback cfg (publish s1).1 j2 = some s3 ∧
      trace cfg s3 (List.replicate n Event.tick) =
        some ({ s3 with zero_twist_published_ := true },
              [cmd 0 0] :: List.replicate (n - 1) []) := by
  obtain ⟨x, y, b, hx, hy, hb, h1⟩ := joyCallback_of_valid cfg s j1 hv1
  obtain ⟨b1, hb1, hne⟩ := hp1
  have eb : b1 = b := Option.some.inj (hb1.symm.trans hb)
  subst eb
  have hpub := publish_pressed
    { last_published_ := cmd (cfg.linear_scale_ * x) (cfg.angular_scale_ * y),
      deadman_pressed_ := decide (b1 ≠ 0),
      zero_twist_published_ := s.zero_twist_published_ } (by simp [hne])
  obtain ⟨s3, h3, hd3, hz3⟩ := joyCallback_of_released cfg
    (publish { last_published_ := cmd (cfg.linear_scale_ * x) (cfg.angular_scale_ * y),
               deadman_pressed_ := decide (b1 ≠ 0),
               zero_twist_published_ := s.zero_twist_published_ }).1 j2 hv2 hr2
  have hz3f : s3.zero_twist_published_ = false := by rw [hz3, hpub]
  refine ⟨x, y, _, s3, hx, hy, h1, ?_, ?_, h3, ?_⟩
  · exact congrArg Prod.snd hpub
  · rw [show (cmd (cfg.linear_scale_ * x) (cfg.angular_scale_ * y)) =
      ({ linear := { x := cfg.linear_scale_ * x, y := 0, z := 0 },
         angular := { x := 0, y := 0, z := cfg.angular_scale_ * y } } : Twist) from rfl] at hpub
    rw [hpub]
  · obtain ⟨m, rfl⟩ : ∃ m, n = m + 1 := ⟨n - 1, by omega⟩
    have hidle := trace_replicate_tick_idle cfg
      { s3 with zero_twist_published_ := true } hd3 rfl m
    rw [List.replicate_succ, trace_tick, publish_released_unflagged s3 hd3 hz3f]
    dsimp only
    rw [hidle]
    rfl

theorem C6_resume_rearms_witness :
    ∃ x y s1 s3, index scenarioA.axes defaultConfig.linear_axis_ = some x ∧
      index scenarioA.axes defaultConfig.angular_axis_ = some y ∧
      joyCallback defaultConfig { initialState with zero_twist_published_ := true }
        scenarioA = some s1 ∧
      (publish s1).2 =
        [cmd (defaultConfig.linear_scale_ * x) (defaultConfig.angular_scale_ * y)] ∧
      (publish s1).1.zero_twist_published_ = false ∧
      joyCallback defaultConfig (publish s1).1 scenarioB = some s3 ∧
      trace defaultConfig s3 (List.replicate 3 Event.tick) =
        some ({ s3 with zero_twist_published_ := true },
              [cmd 0 0] :: List.replicate (3 - 1) []) :=
  C6_resume_rearms defaultConfig { initialState with zero_twist_published_ := true }
    scenarioA scenarioB 3 rfl (by decide) ⟨1, by decide, by decide⟩ (by decide) (by decide)
    (by decide)

/-! ## Frame of the input translator, and overwriting samples -/

/-- C11: for every state and every valid sample, `joyCallback` returns, emits
no outbound command, and leaves the suppression flag as it was; the state it
returns differs from the old one in the cached command and the deadman state
only.  The configuration is read, never written: the rest of a run goes on
under the same configuration. -/
theorem C11_joyCallback_frame (cfg : Config) (s : State) (joy : Joy)
    (hv : validSample cfg joy) :
    ∃ s1, joyCallback cfg s joy = some s1 ∧
      s1.zero_twist_published_ = s.zero_twist_published_ ∧
      s1 = { s with last_published_ := s1.last_published_,
                    deadman_pressed_ := s1.deadman_pressed_ } ∧
      trace cfg s [Event.joy joy] = some (s1, []) ∧
      emitted cfg s [Event.joy joy] = some (s1, []) ∧
      ∀ es, trace cfg s (Event.joy joy :: es) = trace cfg s1 es := by
  obtain ⟨x, y, b, -, -, -, h⟩ := joyCallback_of_valid cfg s joy hv
  refine ⟨_, h, rfl, rfl, ?_, ?_, ?_⟩
  · simp [trace, h]
  · simp [emitted, trace, h]
  · intro es
    rw [trace_joy, h]
    rfl

theorem C11_joyCallback_frame_witness :
    validSample defaultConfig scenarioA ∧
    ∃ s1, joyCallback defaultConfig { initialState with zero_twist_published_ := true }
        scenarioA = some s1 ∧
      s1.zero_twist_published_ = true ∧
      emitted defaultConfig { initialState with zero_twist_published_ := true }
        [Event.joy scenarioA] = some (s1, []) := by
  obtain ⟨s1, h1, h2, -, -, h3, -⟩ := C11_joyCallback_frame defaultConfig
    { initialState with zero_twist_published_ := true } scenarioA (by decide)
  exact ⟨by decide, s1, h1, h2, h3⟩

/-- Translating a valid sample after another valid one gives the state that
translating it alone gives. -/
theorem joyCallback_overwrites (cfg : Config) (s t1 : State) (j1 j2 : Joy)
    (hv2 : validSample cfg j2) (h1 : joyCallback cfg s j1 = some t1) :
    joyCallback cfg t1 j2 = joyCallback cfg s j2 := by
  obtain ⟨x, y, b, hx, hy, hb, h⟩ := joyCallback_of_valid cfg s j2 hv2
  obtain ⟨x1, y1, b1, hx1, hy1, hb1, h'⟩ := joyCallback_of_valid cfg t1 j2 hv2
  have ex : x1 = x := Option.some.inj (hx1.symm.trans hx)
  have ey : y1 = y := Option.some.inj (hy1.symm.trans hy)
  have eb : b1 = b := Option.some.inj (hb1.symm.trans hb)
  subst ex ey eb
  rw [h, h', joyCallback_flag cfg s t1 j1 h1]

/-- C12: for every state and every two valid samples, translating the first
and then the second yields the same state as translating the second alone, so
whatever follows (the next tick in particular) is the same; and from an idle
state (deadman released, flag set) a press followed by a release with no tick
in between makes the next tick emit nothing and leaves the flag set. -/
theorem C12_last_sample_wins (cfg : Config) (s : State) (j1 j2 : Joy)
    (hv1 : validSample cfg j1) (hv2 : validSample cfg j2) :
    (∃ t1 t2, joyCallback cfg s j1 = some t1 ∧ joyCallback cfg t1 j2 = some t2 ∧
      joyCallback cfg s j2 = some t2) ∧
    (∀ es, trace cfg s (Event.joy j1 :: Event.joy j2 :: es) =
      trace cfg s (Event.joy j2 :: es)) ∧
    (s.deadman_pressed_ = false → s.zero_twist_published_ = true →
      pressed cfg j1 → released cfg j2 →
      ∃ s3, trace cfg s [Event.joy j1, Event.joy j2, Event.tick] = some (s3, [[]]) ∧
        s3.deadman_pressed_ = false ∧ s3.zero_twist_published_ = true) := by
  obtain ⟨x, y, b, -, -, -, h1⟩ := joyCallback_of_valid cfg s j1 hv1
  have hover := joyCallback_overwrites cfg s _ j1 j2 hv2 h1
  have hall : ∀ es, trace cfg s (Event.joy j1 :: Event.joy j2 :: es) =
      trace cfg s (Event.joy j2 :: es) := by
    intro es
    rw [trace_joy, h1, Option.some_bind, trace_joy, trace_joy, hover]
  refine ⟨?_, hall, ?_⟩
  · obtain ⟨x2, y2, b2, -, -, -, h2⟩ := joyCallback_of_valid cfg s j2 hv2
    exact ⟨_, _, h1, hover.trans h2, h2⟩
  · intro hd hz _ hr
    obtain ⟨s3, h3, hd3, hz3⟩ := joyCallback_of_released cfg s j2 hv2 hr
    refine ⟨s3, ?_, hd3, hz3.trans hz⟩
    rw [hall, trace_joy, h3, Option.some_bind, trace_tick,
      publish_released_flagged s3 hd3 (hz3.trans hz)]
    rfl

theorem C12_last_sample_wins_witness :
    validSample defaultConfig scenarioA ∧ validSample defaultConfig scenarioB ∧
    pressed defaultConfig scenarioA ∧ released defaultConfig scenarioB ∧
    ∃ s3, trace defaultConfig { initialState with zero_twist_published_ := true }
        [Event.joy scenarioA, Event.joy scenarioB, Event.tick] = some (s3, [[]]) ∧
      s3.deadman_pressed_ = false ∧ s3.zero_twist_published_ = true :=
  ⟨by decide, by decide, ⟨1, by decide, by decide⟩, by decide,
    (C12_last_sample_wins defaultConfig { initialState with zero_twist_published_ := true }
      scenarioA scenarioB (by decide) (by decide)).2.2 rfl rfl
      ⟨1, by decide, by decide⟩ (by decide)⟩

/-! ## What a single tick does -/

/-- C14 (as stated, refuted): in the idle state (deadman released, suppression
flag set) `publish` emits no command; the second of two ticks after startup is
such a tick. -/
theorem C14_counterexample :
    (publish { last_published_ := Twist.zero, deadman_pressed_ := false,
               zero_twist_published_ := true }).2 = [] ∧
    (publish { last_published_ := Twist.zero, deadman_pressed_ := false,
               zero_twist_published_ := true }).2.length ≠ 1 ∧
    trace defaultConfig initialState [Event.tick, Event.tick] =
      some ({ last_published_ := Twist.zero, deadman_pressed_ := false,
              zero_twist_published_ := true }, [[Twist.zero], []]) := by
  refine ⟨rfl, ?_, rfl⟩
  rw [publish_released_flagged _ rfl rfl]
  simp

/-- C14 (amended): every invocation of `publish` emits at most one command; it
emits exactly one unless the deadman is released and the suppression flag is
already set, and in that case it emits none. -/
theorem C14_at_most_one_command_per_tick (s : State) :
    (publish s).2.length ≤ 1 ∧
    ((publish s).2.length = 1 ↔
      ¬ (s.deadman_pressed_ = false ∧ s.zero_twist_published_ = true)) ∧
    ((publish s).2 = [] ↔
      (s.deadman_pressed_ = false ∧ s.zero_twist_published_ = true)) := by
  cases hd : s.deadman_pressed_ with
  | true => rw [publish_pressed s hd]; simp
  | false =>
    cases hz : s.zero_twist_published_ with
    | true => rw [publish_released_flagged s hd hz]; simp
    | false => rw [publish_released_unflagged s hd hz]; simp

/-- C15: for every state, the state left by `publish` has
`zero_twist_published_ = !deadman_pressed_`; so "deadman pressed and flag set"
never survives a tick, and a second `publish` with no sample in between leaves
the state the first one left.  The combination does arise before a tick:
`joyCallback` on a pressed sample in the idle state produces it. -/
theorem C15_post_tick_invariant (s : State) :
    (publish s).1.zero_twist_published_ = !(publish s).1.deadman_pressed_ ∧
    (publish s).1.zero_twist_published_ = !s.deadman_pressed_ ∧
    ¬ ((publish s).1.deadman_pressed_ = true ∧
        (publish s).1.zero_twist_published_ = true) ∧
    (publish (publish s).1).1 = (publish s).1 ∧
    (∃ s1, joyCallback defaultConfig
        { last_published_ := Twist.zero, deadman_pressed_ := false,
          zero_twist_published_ := true } scenarioA = some s1 ∧
      s1.deadman_pressed_ = true ∧ s1.zero_twist_published_ = true) := by
  have hex : ∃ s1, joyCallback defaultConfig
        { last_published_ := Twist.zero, deadman_pressed_ := false,
          zero_twist_published_ := true } scenarioA = some s1 ∧
      s1.deadman_pressed_ = true ∧ s1.zero_twist_published_ = true := by
    obtain ⟨x, y, b, -, -, hb, h⟩ := joyCallback_of_valid defaultConfig
      { last_published_ := Twist.zero, deadman_pressed_ := false,
        zero_twist_published_ := true } scenarioA (by decide)
    have hb1 : index scenarioA.buttons defaultConfig.deadman_axis_ = some 1 := by decide
    have eb : b = 1 := Option.some.inj (hb.symm.trans hb1)
    subst eb
    exact ⟨_, h, by simp, rfl⟩
  cases hd : s.deadman_pressed_ with
  | true =>
    rw [publish_pressed s hd]
    refine ⟨by simp [hd], rfl, by simp, ?_, hex⟩
    rw [publish_pressed _ (by simpa using hd)]
  | false =>
    cases hz : s.zero_twist_published_ with
    | true =>
      rw [publish_released_flagged s hd hz]
      refine ⟨by simp [hd, hz], ?_, by simp [hd], ?_, hex⟩
      · rw [hz]; rfl
      · rw [publish_released_flagged s hd hz]
    | false =>
      rw [publish_released_unflagged s hd hz]
      refine ⟨by simp [hd], rfl, by simp [hd], ?_, hex⟩
      rw [publish_released_flagged _ (by simpa using hd) rfl]

/-- C16: for every state, `publish` leaves the cached command
`last_published_` and the deadman state `deadman_pressed_` as they were; the
only field it can change is `zero_twist_published_`.  Emitting the stop
command does not zero the cached command: with `(0.3, 0.45)` cached and the
deadman released, the tick emits the zero command and `(0.3, 0.45)` stays
cached. -/
theorem C16_publish_frame (s : State) :
    (publish s).1.last_published_ = s.last_published_ ∧
    (publish s).1.deadman_pressed_ = s.deadman_pressed_ ∧
    (publish s).1 = { s with zero_twist_published_ := (publish s).1.zero_twist_published_ } ∧
    publish { last_published_ := cmd (3 / 10) (9 / 20), deadman_pressed_ := false,
              zero_twist_published_ := false } =
      ({ last_published_ := cmd (3 / 10) (9 / 20), deadman_pressed_ := false,
         zero_twist_published_ := true }, [cmd 0 0]) := by
  obtain ⟨l, d, z⟩ := s
  refine ⟨?_, ?_, ?_, rfl⟩ <;> cases d <;> cases z <;> simp [publish]

/-! ## Shape of the emitted commands -/

theorem joyCallback_planar (cfg : Config) (s s1 : State) (joy : Joy)
    (h : joyCallback cfg s joy = some s1) : planar s1.last_published_ := by
  simp only [joyCallback, Option.bind_eq_bind, Option.bind_eq_some, Option.pure_def] at h
  obtain ⟨a, -, l, -, b, -, hs⟩ := h
  rw [← Option.some.inj hs]
  exact ⟨rfl, rfl, rfl, rfl⟩

theorem publish_planar (s : State) (hp : planar s.last_published_) :
    planar (publish s).1.last_published_ ∧ ∀ t ∈ (publish s).2, planar t := by
  obtain ⟨l, d, z⟩ := s
  cases d <;> cases z <;> simp [publish] <;>
    first
    | exact hp
    | exact ⟨hp, ⟨rfl, rfl, rfl, rfl⟩⟩

/-- Along a run the cached command stays planar, and so is every emitted command. -/
theorem trace_planar (cfg : Config) (es : List Event) :
    ∀ (s : State) (r : State × List (List Twist)), planar s.last_published_ →
      trace cfg s es = some r →
      planar r.1.last_published_ ∧ ∀ out ∈ r.2, ∀ t ∈ out, planar t := by
  induction es with
  | nil =>
    intro s r hp h
    simp only [trace, Option.some.injEq] at h
    subst h
    exact ⟨hp, by simp⟩
  | cons e es ih =>
    intro s r hp h
    cases e with
    | joy msg =>
      rw [trace_joy] at h
      cases h1 : joyCallback cfg s msg with
      | none => simp [h1] at h
      | some s1 =>
        rw [h1] at h
        exact ih s1 r (joyCallback_planar cfg s s1 msg h1) h
    | tick =>
      rw [trace_tick] at h
      cases h2 : trace cfg (publish s).1 es with
      | none => simp [h2] at h
      | some r2 =>
        rw [h2] at h
        simp only [Option.map_some', Option.some.injEq] at h
        subst h
        obtain ⟨hp1, hout⟩ := publish_planar s hp
        obtain ⟨hp2, hrest⟩ := ih (publish s).1 r2 hp1 h2
        refine ⟨hp2, ?_⟩
        intro out hmem t ht
        rcases List.mem_cons.mp hmem with rfl | hmem
        · exact hout t ht
        · exact hrest out hmem t ht

/-- C17: for every sequence of valid samples and ticks run from the
constructor state, the run returns and every emitted `Twist` has
`linear.y = linear.z = angular.x = angular.y = 0`, so it is determined by its
`linear.x` and `angular.z`. -/
theorem C17_only_two_components (cfg : Config) (es : List Event)
    (hv : validEvents cfg es) :
    ∃ s out, emitted cfg initialState es = some (s, out) ∧
      ∀ t ∈ out, (t.linear.y = 0 ∧ t.linear.z = 0 ∧ t.angular.x = 0 ∧ t.angular.y = 0) ∧
        t = cmd t.linear.x t.angular.z := by
  obtain ⟨r, hr⟩ := trace_of_valid cfg es initialState hv
  obtain ⟨-, hall⟩ := trace_planar cfg es initialState r ⟨rfl, rfl, rfl, rfl⟩ hr
  refine ⟨r.1, r.2.flatten, by simp [emitted, hr], ?_⟩
  intro t ht
  obtain ⟨out, hout, htout⟩ := List.mem_flatten.mp ht
  have hp := hall out hout t htout
  refine ⟨hp, ?_⟩
  obtain ⟨⟨lx, ly, lz⟩, ⟨ax, ay, az⟩⟩ := t
  obtain ⟨h1, h2, h3, h4⟩ := hp
  simp only at h1 h2 h3 h4
  subst h1 h2 h3 h4
  rfl

theorem C17_only_two_components_witness :
    validEvents defaultConfig [Event.joy scenarioA, Event.tick, Event.joy scenarioB] ∧
    ∃ s out, emitted defaultConfig initialState
        [Event.joy scenarioA, Event.tick, Event.joy scenarioB] = some (s, out) ∧
      ∀ t ∈ out, (t.linear.y = 0 ∧ t.linear.z = 0 ∧ t.angular.x = 0 ∧ t.angular.y = 0) ∧
        t = cmd t.linear.x t.angular.z :=
  have hv : validEvents defaultConfig
      [Event.joy scenarioA, Event.tick, Event.joy scenarioB] := by
    intro msg hm
    simp only [List.mem_cons, Event.joy.injEq, List.mem_singleton, List.mem_nil_iff,
      or_false] at hm
    rcases hm with h | h | h
    · subst h; decide
    · exact absurd h (by simp)
    · subst h; decide
  ⟨hv, C17_only_two_components defaultConfig _ hv⟩

/-! ## Malformed samples -/

/-- On a valid sample the unchecked body computes what `joyCallback` returns,
whatever lies past the end of the two vectors. -/
theorem joyCallbackRaw_of_valid (cfg : Config) (s : State) (joy : Joy)
    (beyondAxes : Int → ℚ) (beyondButtons : Int → Int) (hv : validSample cfg joy) :
    joyCallback cfg s joy = some (joyCallbackRaw cfg s joy beyondAxes beyondButtons) := by
  obtain ⟨x, y, b, hx, hy, hb, h⟩ := joyCallback_of_valid cfg s joy hv
  rw [h]
  simp [joyCallbackRaw, indexRaw, hx, hy, hb, Vector3.zero]

/-- C9 (the code on the sample of Scenario C): `axes = [0.5]` is too short for
`axis_linear = 1`, so the sample is malformed and the access `axes[1]` is out
of range.  The callback has no check and no error path: when the read does
not fault, whatever value `g` lies past the end of `axes`, it stores the
command `(0.3 * g, 0.45)` and the deadman value `true` over the previous
state, from every previous state.  The state is not left as it was (the
constructor state is changed), and the next tick emits `(0.3 * g, 0.45)` as a
motion command. -/
theorem C9_malformed_sample_overwrites_state (s : State)
    (beyondAxes : Int → ℚ) (beyondButtons : Int → Int) :
    ¬ validSample defaultConfig scenarioC ∧
    index scenarioC.axes defaultConfig.linear_axis_ = none ∧
    joyCallbackRaw defaultConfig s scenarioC beyondAxes beyondButtons =
      { last_published_ := cmd (3 / 10 * beyondAxes 1) (9 / 20),
        deadman_pressed_ := true,
        zero_twist_published_ := s.zero_twist_published_ } ∧
    joyCallbackRaw defaultConfig initialState scenarioC beyondAxes beyondButtons ≠
      initialState ∧
    (publish (joyCallbackRaw defaultConfig s scenarioC beyondAxes beyondButtons)).2 =
      [cmd (3 / 10 * beyondAxes 1) (9 / 20)] := by
  have hraw : joyCallbackRaw defaultConfig s scenarioC beyondAxes beyondButtons =
      { last_published_ := cmd (3 / 10 * beyondAxes 1) (9 / 20),
        deadman_pressed_ := true,
        zero_twist_published_ := s.zero_twist_published_ } := by
    simp [joyCallbackRaw, indexRaw, index, scenarioC, defaultConfig, cmd, Vector3.zero]
    norm_num
  refine ⟨by decide, by decide, hraw, ?_, ?_⟩
  · intro h
    have hd := congrArg State.deadman_pressed_ h
    simp [joyCallbackRaw, indexRaw, index, scenarioC, defaultConfig, initialState] at hd
  · rw [hraw, publish_pressed _ rfl]

/-! ## The two writes of P4 under the executor's schedules -/

end Kuams3Teleop
